import Mathlib

/-!
Verification of the sidechain object model, codec, commitment encoder and
selector implemented in src/src/sidechain.cpp.

The byte stream is modelled as a list of natural numbers (each element a
byte value below 256 for well-formed data).  Multi-byte integer fields use
the fixed-width little-endian convention of the surrounding consensus
serialization format, and variable-length data is length-prefixed with the
Bitcoin compact-size convention; both are external collaborators of the
file under verification (streams.h / serialize.h), modelled here from the
specification of the wire format.
-/

/-- Little-endian encoding of a natural number into a fixed number of
bytes, least significant byte first (the consensus convention for
fixed-width integer fields). -/
def encLE : Nat → Nat → List Nat
  | 0, _ => []
  | k + 1, n => n % 256 :: encLE k (n / 256)

/-- Little-endian decoding of a fixed number of bytes from the front of a
stream; fails when the stream is too short, otherwise returns the value
and the remaining stream. -/
def decLE : Nat → List Nat → Option (Nat × List Nat)
  | 0, s => some (0, s)
  | _ + 1, [] => none
  | k + 1, b :: s =>
    match decLE k s with
    | some (m, rest) => some (b + 256 * m, rest)
    | none => none

/-- Reading a fixed number of raw bytes from the front of a stream; fails
when the stream is too short. -/
def readBytes : Nat → List Nat → Option (List Nat × List Nat)
  | 0, s => some ([], s)
  | _ + 1, [] => none
  | k + 1, b :: s =>
    match readBytes k s with
    | some (bs, rest) => some (b :: bs, rest)
    | none => none

/-- Bitcoin compact-size encoding of a length (an external convention of
the consensus serialization layer). -/
def writeCompactSize (n : Nat) : List Nat :=
  if n < 253 then [n]
  else if n ≤ 65535 then 253 :: encLE 2 n
  else if n ≤ 4294967295 then 254 :: encLE 4 n
  else 255 :: encLE 8 n

/-- Bitcoin compact-size decoding from the front of a stream. -/
def readCompactSize : List Nat → Option (Nat × List Nat)
  | [] => none
  | b :: s =>
    if b < 253 then some (b, s)
    else if b = 253 then decLE 2 s
    else if b = 254 then decLE 4 s
    else decLE 8 s

lemma decLE_encLE (k n : Nat) (s : List Nat) (h : n < 256 ^ k) :
    decLE k (encLE k n ++ s) = some (n, s) := by
  induction k generalizing n s with
  | zero =>
    have hn : n = 0 := Nat.lt_one_iff.mp (by simpa using h)
    subst hn
    simp [encLE, decLE]
  | succ k ih =>
    have hdiv : n / 256 < 256 ^ k := by
      rw [Nat.div_lt_iff_lt_mul (by norm_num)]
      calc n < 256 ^ (k + 1) := h
        _ = 256 ^ k * 256 := by rw [pow_succ]
    simp [encLE, decLE, ih _ _ hdiv, Nat.mod_add_div]

lemma decLE_encLE_1 (n : Nat) (s : List Nat) (h : n < 256) :
    decLE 1 (encLE 1 n ++ s) = some (n, s) :=
  decLE_encLE 1 n s (by simpa using h)

lemma decLE_encLE_2 (n : Nat) (s : List Nat) (h : n ≤ 65535) :
    decLE 2 (encLE 2 n ++ s) = some (n, s) :=
  decLE_encLE 2 n s (by norm_num; omega)

lemma decLE_encLE_4 (n : Nat) (s : List Nat) (h : n < 2 ^ 32) :
    decLE 4 (encLE 4 n ++ s) = some (n, s) :=
  decLE_encLE 4 n s (h.trans_le (by norm_num))

lemma decLE_encLE_8 (n : Nat) (s : List Nat) (h : n < 2 ^ 64) :
    decLE 8 (encLE 8 n ++ s) = some (n, s) :=
  decLE_encLE 8 n s (h.trans_le (by norm_num))

lemma decLE_encLE_20 (n : Nat) (s : List Nat) (h : n < 2 ^ 160) :
    decLE 20 (encLE 20 n ++ s) = some (n, s) :=
  decLE_encLE 20 n s (h.trans_le (by norm_num))

lemma decLE_encLE_32 (n : Nat) (s : List Nat) (h : n < 2 ^ 256) :
    decLE 32 (encLE 32 n ++ s) = some (n, s) :=
  decLE_encLE 32 n s (h.trans_le (by norm_num))

lemma readBytes_append (l s : List Nat) :
    readBytes l.length (l ++ s) = some (l, s) := by
  induction l with
  | nil => simp [readBytes]
  | cons b t ih => simp [readBytes, ih]

lemma readCompactSize_writeCompactSize (n : Nat) (s : List Nat)
    (h : n < 2 ^ 64) :
    readCompactSize (writeCompactSize n ++ s) = some (n, s) := by
  unfold writeCompactSize
  by_cases h1 : n < 253
  · simp [h1, readCompactSize]
  · rw [if_neg h1]
    by_cases h2 : n ≤ 65535
    · rw [if_pos h2, List.cons_append]
      simp only [readCompactSize]
      norm_num
      exact decLE_encLE_2 n s h2
    · rw [if_neg h2]
      by_cases h3 : n ≤ 4294967295
      · rw [if_pos h3, List.cons_append]
        simp only [readCompactSize]
        norm_num
        exact decLE_encLE_4 n s (by omega)
      · rw [if_neg h3, List.cons_append]
        simp only [readCompactSize]
        norm_num
        exact decLE_encLE_8 n s h

/-- Modelled from the spec: the embedded candidate mainchain transaction
(CMutableTransaction).  The transaction format belongs to the surrounding
consensus serialization layer, an explicit external collaborator of this
file, so the transaction is modelled as its opaque consensus-serialized
byte payload with a self-delimiting length prefix. -/
structure CMutableTransaction where
  raw : List Nat
deriving DecidableEq

/-- Consensus serialization of an embedded transaction (modelled from the
spec as an opaque, self-delimiting payload). -/
def serializeTx (tx : CMutableTransaction) : List Nat :=
  writeCompactSize tx.raw.length ++ tx.raw

/-- Consensus deserialization of an embedded transaction. -/
def readTx (s : List Nat) : Option (CMutableTransaction × List Nat) :=
  match readCompactSize s with
  | some (len, rest) =>
    match readBytes len rest with
    | some (bs, rest2) => some (⟨bs⟩, rest2)
    | none => none
  | none => none

lemma readTx_serializeTx (tx : CMutableTransaction) (s : List Nat)
    (h : tx.raw.length < 2 ^ 64) :
    readTx (serializeTx tx ++ s) = some (tx, s) := by
  unfold readTx serializeTx
  rw [List.append_assoc, readCompactSize_writeCompactSize _ _ h]
  simp [readBytes_append]

/-- Modelled from the spec: the tag constants DB_SIDECHAIN_WT_OP,
DB_SIDECHAIN_WTPRIME_OP and DB_SIDECHAIN_DEPOSIT_OP are declared in the
missing header sidechain.h as three distinct character values; they are
modelled as the byte values of the characters W, P and D.  Every claim
below depends only on the three values being distinct byte values. -/
def DB_SIDECHAIN_WT_OP : Nat := 87

/-- Modelled from the spec: the withdrawal-bundle tag byte (see
DB_SIDECHAIN_WT_OP). -/
def DB_SIDECHAIN_WTPRIME_OP : Nat := 80

/-- Modelled from the spec: the deposit tag byte (see
DB_SIDECHAIN_WT_OP). -/
def DB_SIDECHAIN_DEPOSIT_OP : Nat := 68

/-- Modelled from the spec: the closed withdrawal-request status
enumeration Unspent, InBundle (pending in WT^), Spent, declared in the
missing header; modelled as the values 0, 1, 2. -/
def WT_UNSPENT : Nat := 0

/-- Modelled from the spec: the pending-in-bundle status value. -/
def WT_IN_WTPRIME : Nat := 1

/-- Modelled from the spec: the spent status value. -/
def WT_SPENT : Nat := 2

/-- The no-payout data-only output marker opcode OP_RETURN (0x6a), an
external constant of the script layer used by GetScript as the first
header byte. -/
def OP_RETURN : Nat := 0x6a

/-- Withdrawal request (SidechainWT): the base-object tag field followed
by the type-specific fields, in the declaration and serialization order of
the record.  The destination string is modelled as its byte sequence,
hashes as their numeric value. -/
structure SidechainWT where
  sidechainop : Nat
  nSidechain : Nat
  strDestination : List Nat
  amount : Nat
  mainchainFee : Nat
  status : Nat
  hashBlindWTX : Nat
deriving DecidableEq

/-- Withdrawal bundle (SidechainWTPrime): tag field, sidechain index, the
embedded candidate mainchain transaction, status, and the height at which
the bundle was created/observed. -/
structure SidechainWTPrime where
  sidechainop : Nat
  nSidechain : Nat
  wtPrime : CMutableTransaction
  status : Nat
  nHeight : Nat
deriving DecidableEq

/-- Deposit (SidechainDeposit): tag field, sidechain index, recipient key
identifier (160-bit hash), user payout amount, the observed mainchain
deposit transaction, and the output index n within that transaction. -/
structure SidechainDeposit where
  sidechainop : Nat
  nSidechain : Nat
  keyID : Nat
  amtUserPayout : Nat
  dtx : CMutableTransaction
  n : Nat
deriving DecidableEq

/-- The base object SidechainObj: one of the three variants.  The C++
source uses a base struct with a tag field and unchecked casts to the
three derived layouts; the sum type is the value-level counterpart. -/
inductive SidechainObj where
  | wt (w : SidechainWT)
  | wtPrime (p : SidechainWTPrime)
  | deposit (d : SidechainDeposit)
deriving DecidableEq

/-- The tag field sidechainop of the base object. -/
def SidechainObj.sidechainop : SidechainObj → Nat
  | .wt w => w.sidechainop
  | .wtPrime p => p.sidechainop
  | .deposit d => d.sidechainop

/-- The static tag byte of a variant kind (the value the constructor of
that variant assigns to sidechainop). -/
def SidechainObj.kindTag : SidechainObj → Nat
  | .wt _ => DB_SIDECHAIN_WT_OP
  | .wtPrime _ => DB_SIDECHAIN_WTPRIME_OP
  | .deposit _ => DB_SIDECHAIN_DEPOSIT_OP

/-- Modelled from the spec: SidechainWT::Serialize from the missing
header sidechain.h — the tag field followed by the type-specific fields
in the documented fixed order: sidechain index, destination string
(length-prefixed), amount, mainchain fee, status, blinded-transaction
hash. -/
def serializeWT (w : SidechainWT) : List Nat :=
  encLE 1 w.sidechainop ++ encLE 1 w.nSidechain ++
  writeCompactSize w.strDestination.length ++ w.strDestination ++
  encLE 8 w.amount ++ encLE 8 w.mainchainFee ++
  encLE 1 w.status ++ encLE 32 w.hashBlindWTX

/-- Modelled from the spec: SidechainWT::Unserialize — reads the fields
of serializeWT in order from the front of the stream, failing when the
stream is too short, and returns the populated record together with the
unread remainder of the stream. -/
def decodeWT (s : List Nat) : Option (SidechainWT × List Nat) :=
  (decLE 1 s).bind fun p1 =>
  (decLE 1 p1.2).bind fun p2 =>
  (readCompactSize p2.2).bind fun p3 =>
  (readBytes p3.1 p3.2).bind fun p4 =>
  (decLE 8 p4.2).bind fun p5 =>
  (decLE 8 p5.2).bind fun p6 =>
  (decLE 1 p6.2).bind fun p7 =>
  (decLE 32 p7.2).bind fun p8 =>
  some (⟨p1.1, p2.1, p4.1, p5.1, p6.1, p7.1, p8.1⟩, p8.2)

/-- Modelled from the spec: SidechainWTPrime::Serialize — tag field,
sidechain index, embedded candidate transaction, status, height.  The
height field is included so that the round-trip contract of the spec
holds field-for-field. -/
def serializeWTPrime (p : SidechainWTPrime) : List Nat :=
  encLE 1 p.sidechainop ++ encLE 1 p.nSidechain ++
  serializeTx p.wtPrime ++ encLE 1 p.status ++ encLE 4 p.nHeight

/-- Modelled from the spec: SidechainWTPrime::Unserialize. -/
def decodeWTPrime (s : List Nat) : Option (SidechainWTPrime × List Nat) :=
  (decLE 1 s).bind fun p1 =>
  (decLE 1 p1.2).bind fun p2 =>
  (readTx p2.2).bind fun p3 =>
  (decLE 1 p3.2).bind fun p4 =>
  (decLE 4 p4.2).bind fun p5 =>
  some (⟨p1.1, p2.1, p3.1, p4.1, p5.1⟩, p5.2)

/-- Modelled from the spec: SidechainDeposit::Serialize — tag field,
sidechain index, key identifier (20 bytes), payout amount, deposit
transaction, output index. -/
def serializeDeposit (d : SidechainDeposit) : List Nat :=
  encLE 1 d.sidechainop ++ encLE 1 d.nSidechain ++
  encLE 20 d.keyID ++ encLE 8 d.amtUserPayout ++
  serializeTx d.dtx ++ encLE 4 d.n

/-- Modelled from the spec: SidechainDeposit::Unserialize. -/
def decodeDeposit (s : List Nat) : Option (SidechainDeposit × List Nat) :=
  (decLE 1 s).bind fun p1 =>
  (decLE 1 p1.2).bind fun p2 =>
  (decLE 20 p2.2).bind fun p3 =>
  (decLE 8 p3.2).bind fun p4 =>
  (readTx p4.2).bind fun p5 =>
  (decLE 4 p5.2).bind fun p6 =>
  some (⟨p1.1, p2.1, p3.1, p4.1, p5.1, p6.1⟩, p6.2)

/-- The serialization of the variant an object actually is: the Encode
operation of the Codec component (the Serialize method the source
dispatches to). -/
def Encode : SidechainObj → List Nat
  | .wt w => serializeWT w
  | .wtPrime p => serializeWTPrime p
  | .deposit d => serializeDeposit d

/-- Result of ParseSidechainObj.  The C++ function returns NULL for an
empty buffer or an unrecognized tag (absence), a freshly allocated object
on success, and lets the deserialization failure of the external stream
class propagate as a hard error on a recognized tag with malformed
remaining bytes. -/
inductive ParseResult where
  | absence
  | ok (o : SidechainObj)
  | error
deriving DecidableEq

/-- ParseSidechainObj (sidechain.cpp lines 113-140): empty buffer gives
absence; otherwise the first byte is compared against the three tag
constants and the whole buffer (tag byte included) is deserialized as the
matching variant; an unrecognized first byte gives absence. -/
def ParseSidechainObj (vch : List Nat) : ParseResult :=
  match vch with
  | [] => .absence
  | b :: rest =>
    if b = DB_SIDECHAIN_WT_OP then
      match decodeWT (b :: rest) with
      | some (obj, _) => .ok (.wt obj)
      | none => .error
    else if b = DB_SIDECHAIN_WTPRIME_OP then
      match decodeWTPrime (b :: rest) with
      | some (obj, _) => .ok (.wtPrime obj)
      | none => .error
    else if b = DB_SIDECHAIN_DEPOSIT_OP then
      match decodeDeposit (b :: rest) with
      | some (obj, _) => .ok (.deposit obj)
      | none => .error
    else .absence

/-- The serialization the source obtains by casting the base object to
SidechainWT and calling Serialize.  The cast is only meaningful when the
object actually is a withdrawal request (which every tag-checked call
site guarantees); a mismatched cast is undefined behaviour in the source
and is modelled as the empty stream. -/
def serializeAsWT : SidechainObj → List Nat
  | .wt w => serializeWT w
  | _ => []

/-- The cast-to-SidechainWTPrime serialization (see serializeAsWT). -/
def serializeAsWTPrime : SidechainObj → List Nat
  | .wtPrime p => serializeWTPrime p
  | _ => []

/-- The cast-to-SidechainDeposit serialization (see serializeAsWT). -/
def serializeAsDeposit : SidechainObj → List Nat
  | .deposit d => serializeDeposit d
  | _ => []

/-- SidechainObj::GetScript (sidechain.cpp lines 175-203): serialize the
variant selected by the tag field, then emit the 5-byte header
OP_RETURN, 0xAC, 0xDC, 0xF6, 0x6F followed by the serialization. -/
def SidechainObj.getScript (o : SidechainObj) : List Nat :=
  let vch :=
    if o.sidechainop = DB_SIDECHAIN_WT_OP then serializeAsWT o
    else if o.sidechainop = DB_SIDECHAIN_WTPRIME_OP then serializeAsWTPrime o
    else if o.sidechainop = DB_SIDECHAIN_DEPOSIT_OP then serializeAsDeposit o
    else []
  OP_RETURN :: 0xAC :: 0xDC :: 0xF6 :: 0x6F :: vch

/-- Modelled from the spec: the external identity-hash primitive
SerializeHash from hash.h, a deterministic function of an object's
serialized bytes, producing a 256-bit value.  Modelled as a concrete
deterministic accumulator over the bytes, reduced modulo 2 to the 256. -/
def SerializeHash (bytes : List Nat) : Nat :=
  (bytes.foldl (fun acc b => acc * 256 + b + 1) 1) % 2 ^ 256

/-- SidechainObj::GetHash (sidechain.cpp lines 19-32): a default (zero)
hash value, overwritten by the serialize-hash of the variant selected by
the tag field; an unrecognized tag leaves the zero value in place. -/
def SidechainObj.getHash (o : SidechainObj) : Nat :=
  if o.sidechainop = DB_SIDECHAIN_WT_OP then SerializeHash (serializeAsWT o)
  else if o.sidechainop = DB_SIDECHAIN_WTPRIME_OP then
    SerializeHash (serializeAsWTPrime o)
  else if o.sidechainop = DB_SIDECHAIN_DEPOSIT_OP then
    SerializeHash (serializeAsDeposit o)
  else 0

/-- The comparator CompareWTMainchainFee of the source: a strict
greater-than on the mainchain fee. -/
def CompareWTMainchainFee (a b : SidechainWT) : Prop :=
  a.mainchainFee > b.mainchainFee

instance (a b : SidechainWT) : Decidable (CompareWTMainchainFee a b) :=
  Nat.decLt _ _

/-- The comparator CompareWTPrimeHeight of the source: a strict
greater-than on the height. -/
def CompareWTPrimeHeight (a b : SidechainWTPrime) : Prop :=
  a.nHeight > b.nHeight

instance (a b : SidechainWTPrime) : Decidable (CompareWTPrimeHeight a b) :=
  Nat.decLt _ _

/-- SortWTByFee (sidechain.cpp lines 150-153): sort the collection with
std::sort under CompareWTMainchainFee.  std::sort leaves the algorithm
and the relative order of equal-fee elements unspecified and guarantees
exactly that the result is a permutation ordered so that no later element
compares greater than an earlier one; it is modelled as an insertion sort
over the non-strict ordering induced by the comparator, which realizes
that guarantee. -/
def SortWTByFee (vWT : List SidechainWT) : List SidechainWT :=
  List.insertionSort (fun a b => ¬ CompareWTMainchainFee b a) vWT

/-- SortWTPrimeByHeight (sidechain.cpp lines 163-166): std::sort under
CompareWTPrimeHeight, modelled like SortWTByFee. -/
def SortWTPrimeByHeight (vWTPrime : List SidechainWTPrime) :
    List SidechainWTPrime :=
  List.insertionSort (fun a b => ¬ CompareWTPrimeHeight b a) vWTPrime

/-- SelectUnspentWT (sidechain.cpp lines 168-173): the erase-remove idiom
removing every element whose status differs from WT_UNSPENT, i.e. the
stable filter retaining exactly the elements whose removal predicate is
false. -/
def SelectUnspentWT (vWT : List SidechainWT) : List SidechainWT :=
  vWT.filter (fun wt => !(wt.status != WT_UNSPENT))

/-- A valid constructed withdrawal request: the tag field holds the value
the constructor assigns, and every field is in the range of its C++ type
(byte fields below 256, 64-bit amounts, a 256-bit hash, a destination
string of bytes). -/
def WFWT (w : SidechainWT) : Prop :=
  w.sidechainop = DB_SIDECHAIN_WT_OP ∧
  w.nSidechain < 256 ∧
  w.strDestination.length < 2 ^ 64 ∧
  (∀ b ∈ w.strDestination, b < 256) ∧
  w.amount < 2 ^ 64 ∧
  w.mainchainFee < 2 ^ 64 ∧
  w.status < 256 ∧
  w.hashBlindWTX < 2 ^ 256

/-- A valid constructed withdrawal bundle (see WFWT). -/
def WFWTPrime (p : SidechainWTPrime) : Prop :=
  p.sidechainop = DB_SIDECHAIN_WTPRIME_OP ∧
  p.nSidechain < 256 ∧
  p.wtPrime.raw.length < 2 ^ 64 ∧
  (∀ b ∈ p.wtPrime.raw, b < 256) ∧
  p.status < 256 ∧
  p.nHeight < 2 ^ 32

/-- A valid constructed deposit (see WFWT). -/
def WFDeposit (d : SidechainDeposit) : Prop :=
  d.sidechainop = DB_SIDECHAIN_DEPOSIT_OP ∧
  d.nSidechain < 256 ∧
  d.keyID < 2 ^ 160 ∧
  d.amtUserPayout < 2 ^ 64 ∧
  d.dtx.raw.length < 2 ^ 64 ∧
  (∀ b ∈ d.dtx.raw, b < 256) ∧
  d.n < 2 ^ 32

/-- A valid constructed object of any of the three variants. -/
def WFObj : SidechainObj → Prop
  | .wt w => WFWT w
  | .wtPrime p => WFWTPrime p
  | .deposit d => WFDeposit d

instance instDecWFWT (w : SidechainWT) : Decidable (WFWT w) := by
  unfold WFWT
  exact inferInstance

instance instDecWFWTPrime (p : SidechainWTPrime) : Decidable (WFWTPrime p) := by
  unfold WFWTPrime
  exact inferInstance

instance instDecWFDeposit (d : SidechainDeposit) : Decidable (WFDeposit d) := by
  unfold WFDeposit
  exact inferInstance

instance instDecWFObj : (o : SidechainObj) → Decidable (WFObj o)
  | .wt w => instDecWFWT w
  | .wtPrime p => instDecWFWTPrime p
  | .deposit d => instDecWFDeposit d

lemma decodeWT_serializeWT (w : SidechainWT) (s : List Nat) (h : WFWT w) :
    decodeWT (serializeWT w ++ s) = some (w, s) := by
  obtain ⟨hop, hns, hlen, _hbytes, hamt, hfee, hst, hh⟩ := h
  have hop' : w.sidechainop < 256 := by rw [hop]; decide
  unfold serializeWT decodeWT
  simp only [List.append_assoc]
  rw [decLE_encLE_1 _ _ hop']
  simp only [Option.some_bind]
  rw [decLE_encLE_1 _ _ hns]
  simp only [Option.some_bind]
  rw [readCompactSize_writeCompactSize _ _ hlen]
  simp only [Option.some_bind]
  rw [readBytes_append]
  simp only [Option.some_bind]
  rw [decLE_encLE_8 _ _ hamt]
  simp only [Option.some_bind]
  rw [decLE_encLE_8 _ _ hfee]
  simp only [Option.some_bind]
  rw [decLE_encLE_1 _ _ hst]
  simp only [Option.some_bind]
  rw [decLE_encLE_32 _ _ hh]
  simp only [Option.some_bind]

lemma decodeWTPrime_serializeWTPrime (p : SidechainWTPrime) (s : List Nat)
    (h : WFWTPrime p) :
    decodeWTPrime (serializeWTPrime p ++ s) = some (p, s) := by
  obtain ⟨hop, hns, hlen, _hbytes, hst, hht⟩ := h
  have hop' : p.sidechainop < 256 := by rw [hop]; decide
  unfold serializeWTPrime decodeWTPrime
  simp only [List.append_assoc]
  rw [decLE_encLE_1 _ _ hop']
  simp only [Option.some_bind]
  rw [decLE_encLE_1 _ _ hns]
  simp only [Option.some_bind]
  rw [readTx_serializeTx _ _ hlen]
  simp only [Option.some_bind]
  rw [decLE_encLE_1 _ _ hst]
  simp only [Option.some_bind]
  rw [decLE_encLE_4 _ _ hht]
  simp only [Option.some_bind]

lemma decodeDeposit_serializeDeposit (d : SidechainDeposit) (s : List Nat)
    (h : WFDeposit d) :
    decodeDeposit (serializeDeposit d ++ s) = some (d, s) := by
  obtain ⟨hop, hns, hkey, hamt, hlen, _hbytes, hn⟩ := h
  have hop' : d.sidechainop < 256 := by rw [hop]; decide
  unfold serializeDeposit decodeDeposit
  simp only [List.append_assoc]
  rw [decLE_encLE_1 _ _ hop']
  simp only [Option.some_bind]
  rw [decLE_encLE_1 _ _ hns]
  simp only [Option.some_bind]
  rw [decLE_encLE_20 _ _ hkey]
  simp only [Option.some_bind]
  rw [decLE_encLE_8 _ _ hamt]
  simp only [Option.some_bind]
  rw [readTx_serializeTx _ _ hlen]
  simp only [Option.some_bind]
  rw [decLE_encLE_4 _ _ hn]
  simp only [Option.some_bind]

lemma serializeWT_cons (w : SidechainWT) (h : WFWT w) :
    ∃ t, serializeWT w = DB_SIDECHAIN_WT_OP :: t := by
  have henc : encLE 1 w.sidechainop = [DB_SIDECHAIN_WT_OP] := by
    simp [encLE, h.1, DB_SIDECHAIN_WT_OP]
  refine ⟨encLE 1 w.nSidechain ++ writeCompactSize w.strDestination.length ++
    w.strDestination ++ encLE 8 w.amount ++ encLE 8 w.mainchainFee ++
    encLE 1 w.status ++ encLE 32 w.hashBlindWTX, ?_⟩
  unfold serializeWT
  rw [henc]
  simp

lemma serializeWTPrime_cons (p : SidechainWTPrime) (h : WFWTPrime p) :
    ∃ t, serializeWTPrime p = DB_SIDECHAIN_WTPRIME_OP :: t := by
  have henc : encLE 1 p.sidechainop = [DB_SIDECHAIN_WTPRIME_OP] := by
    simp [encLE, h.1, DB_SIDECHAIN_WTPRIME_OP]
  refine ⟨encLE 1 p.nSidechain ++ serializeTx p.wtPrime ++
    encLE 1 p.status ++ encLE 4 p.nHeight, ?_⟩
  unfold serializeWTPrime
  rw [henc]
  simp

lemma serializeDeposit_cons (d : SidechainDeposit) (h : WFDeposit d) :
    ∃ t, serializeDeposit d = DB_SIDECHAIN_DEPOSIT_OP :: t := by
  have henc : encLE 1 d.sidechainop = [DB_SIDECHAIN_DEPOSIT_OP] := by
    simp [encLE, h.1, DB_SIDECHAIN_DEPOSIT_OP]
  refine ⟨encLE 1 d.nSidechain ++ encLE 20 d.keyID ++
    encLE 8 d.amtUserPayout ++ serializeTx d.dtx ++ encLE 4 d.n, ?_⟩
  unfold serializeDeposit
  rw [henc]
  simp

lemma ParseSidechainObj_serializeWT (w : SidechainWT) (s : List Nat)
    (h : WFWT w) :
    ParseSidechainObj (serializeWT w ++ s) = .ok (.wt w) := by
  obtain ⟨t, ht⟩ := serializeWT_cons w h
  have hdec : decodeWT (serializeWT w ++ s) = some (w, s) :=
    decodeWT_serializeWT w s h
  rw [ht] at hdec ⊢
  rw [List.cons_append] at hdec ⊢
  simp only [ParseSidechainObj, if_true]
  rw [hdec]

lemma ParseSidechainObj_serializeWTPrime (p : SidechainWTPrime) (s : List Nat)
    (h : WFWTPrime p) :
    ParseSidechainObj (serializeWTPrime p ++ s) = .ok (.wtPrime p) := by
  obtain ⟨t, ht⟩ := serializeWTPrime_cons p h
  have hdec : decodeWTPrime (serializeWTPrime p ++ s) = some (p, s) :=
    decodeWTPrime_serializeWTPrime p s h
  rw [ht] at hdec ⊢
  rw [List.cons_append] at hdec ⊢
  simp only [ParseSidechainObj, if_true]
  rw [hdec]
  simp [DB_SIDECHAIN_WT_OP, DB_SIDECHAIN_WTPRIME_OP, DB_SIDECHAIN_DEPOSIT_OP]

lemma ParseSidechainObj_serializeDeposit (d : SidechainDeposit) (s : List Nat)
    (h : WFDeposit d) :
    ParseSidechainObj (serializeDeposit d ++ s) = .ok (.deposit d) := by
  obtain ⟨t, ht⟩ := serializeDeposit_cons d h
  have hdec : decodeDeposit (serializeDeposit d ++ s) = some (d, s) :=
    decodeDeposit_serializeDeposit d s h
  rw [ht] at hdec ⊢
  rw [List.cons_append] at hdec ⊢
  simp only [ParseSidechainObj, if_true]
  rw [hdec]
  simp [DB_SIDECHAIN_WT_OP, DB_SIDECHAIN_WTPRIME_OP, DB_SIDECHAIN_DEPOSIT_OP]

lemma ParseSidechainObj_Encode (o : SidechainObj) (s : List Nat)
    (h : WFObj o) :
    ParseSidechainObj (Encode o ++ s) = .ok o := by
  cases o with
  | wt w => exact ParseSidechainObj_serializeWT w s h
  | wtPrime p => exact ParseSidechainObj_serializeWTPrime p s h
  | deposit d => exact ParseSidechainObj_serializeDeposit d s h

lemma getScript_eq (o : SidechainObj) (h : WFObj o) :
    o.getScript = OP_RETURN :: 0xAC :: 0xDC :: 0xF6 :: 0x6F :: Encode o := by
  cases o with
  | wt w =>
    have hop : w.sidechainop = DB_SIDECHAIN_WT_OP := h.1
    simp [SidechainObj.getScript, SidechainObj.sidechainop, hop, Encode,
      serializeAsWT]
  | wtPrime p =>
    have hop : p.sidechainop = DB_SIDECHAIN_WTPRIME_OP := h.1
    simp [SidechainObj.getScript, SidechainObj.sidechainop, hop, Encode,
      serializeAsWTPrime, DB_SIDECHAIN_WTPRIME_OP, DB_SIDECHAIN_WT_OP]
  | deposit d =>
    have hop : d.sidechainop = DB_SIDECHAIN_DEPOSIT_OP := h.1
    simp [SidechainObj.getScript, SidechainObj.sidechainop, hop, Encode,
      serializeAsDeposit, DB_SIDECHAIN_DEPOSIT_OP, DB_SIDECHAIN_WT_OP,
      DB_SIDECHAIN_WTPRIME_OP]

lemma Encode_head (o : SidechainObj) (h : WFObj o) :
    (Encode o).head? = some o.kindTag := by
  cases o with
  | wt w =>
    obtain ⟨t, ht⟩ := serializeWT_cons w h
    simp [Encode, ht, SidechainObj.kindTag]
  | wtPrime p =>
    obtain ⟨t, ht⟩ := serializeWTPrime_cons p h
    simp [Encode, ht, SidechainObj.kindTag]
  | deposit d =>
    obtain ⟨t, ht⟩ := serializeDeposit_cons d h
    simp [Encode, ht, SidechainObj.kindTag]

instance : IsTotal SidechainWT (fun a b => ¬ CompareWTMainchainFee b a) :=
  ⟨fun a b => by
    simp only [CompareWTMainchainFee]
    omega⟩

instance : IsTrans SidechainWT (fun a b => ¬ CompareWTMainchainFee b a) :=
  ⟨fun a b c hab hbc => by
    simp only [CompareWTMainchainFee] at hab hbc ⊢
    omega⟩

instance : IsTotal SidechainWTPrime (fun a b => ¬ CompareWTPrimeHeight b a) :=
  ⟨fun a b => by
    simp only [CompareWTPrimeHeight]
    omega⟩

instance : IsTrans SidechainWTPrime (fun a b => ¬ CompareWTPrimeHeight b a) :=
  ⟨fun a b c hab hbc => by
    simp only [CompareWTPrimeHeight] at hab hbc ⊢
    omega⟩

/-- A concrete valid withdrawal request (destination mSomeAddr as bytes,
amount 100000000, fee 1000000, status Unspent, zero blinded hash). -/
def exWT : SidechainWT :=
  ⟨DB_SIDECHAIN_WT_OP, 0, [109, 83, 111, 109, 101, 65, 100, 100, 114],
    100000000, 1000000, WT_UNSPENT, 0⟩

/-- A concrete valid withdrawal bundle. -/
def exWTPrime : SidechainWTPrime :=
  ⟨DB_SIDECHAIN_WTPRIME_OP, 1, ⟨[1, 2, 3]⟩, 0, 100⟩

/-- A concrete valid deposit. -/
def exDeposit : SidechainDeposit :=
  ⟨DB_SIDECHAIN_DEPOSIT_OP, 2, 5, 50000, ⟨[9, 8]⟩, 1⟩

/-- Three unspent withdrawal requests with fees 500000, 900000, 100000 in
that input order (the concrete fee-ordering scenario of the spec). -/
def vWTFeeExample : List SidechainWT :=
  [{ exWT with mainchainFee := 500000 },
   { exWT with mainchainFee := 900000 },
   { exWT with mainchainFee := 100000 }]

/-- A spent withdrawal request, for the status-filter scenario. -/
def exWTSpent : SidechainWT := { exWT with status := WT_SPENT }

/-- A mixed-status input list for the status filter. -/
def vWTStatusExample : List SidechainWT := [exWTSpent, exWT, exWTSpent]

/-- Two bundles out of height order, for the recency-ordering witness. -/
def vWTPrimeExample : List SidechainWTPrime :=
  [{ exWTPrime with nHeight := 3 }, { exWTPrime with nHeight := 7 }]

/-- The field deserializer that ParseSidechainObj dispatches to for a
recognized tag byte (the Unserialize call of the matching variant),
returning the populated object and discarding the unread remainder. -/
def decodeTagged (b : Nat) (vch : List Nat) : Option SidechainObj :=
  if b = DB_SIDECHAIN_WT_OP then
    (decodeWT vch).map (fun p => .wt p.1)
  else if b = DB_SIDECHAIN_WTPRIME_OP then
    (decodeWTPrime vch).map (fun p => .wtPrime p.1)
  else if b = DB_SIDECHAIN_DEPOSIT_OP then
    (decodeDeposit vch).map (fun p => .deposit p.1)
  else none

/-- C1: for every valid constructed value of each of the three variants,
stripping the 5-byte header of GetScript and decoding the remainder with
ParseSidechainObj yields an object equal to the original field for
field. -/
theorem C1_commitment_roundtrip (o : SidechainObj) (h : WFObj o) :
    ParseSidechainObj ((SidechainObj.getScript o).drop 5) = .ok o := by
  rw [getScript_eq o h]
  have hdrop :
      (OP_RETURN :: 0xAC :: 0xDC :: 0xF6 :: 0x6F :: Encode o).drop 5 =
        Encode o := rfl
  rw [hdrop]
  have := ParseSidechainObj_Encode o [] h
  simpa using this

theorem C1_commitment_roundtrip_witness :
    (WFObj (.wt exWT) ∧
      ParseSidechainObj ((SidechainObj.getScript (.wt exWT)).drop 5) =
        .ok (.wt exWT)) ∧
    (WFObj (.wtPrime exWTPrime) ∧
      ParseSidechainObj ((SidechainObj.getScript (.wtPrime exWTPrime)).drop 5) =
        .ok (.wtPrime exWTPrime)) ∧
    (WFObj (.deposit exDeposit) ∧
      ParseSidechainObj ((SidechainObj.getScript (.deposit exDeposit)).drop 5) =
        .ok (.deposit exDeposit)) :=
  ⟨⟨by decide, C1_commitment_roundtrip _ (by decide)⟩,
   ⟨by decide, C1_commitment_roundtrip _ (by decide)⟩,
   ⟨by decide, C1_commitment_roundtrip _ (by decide)⟩⟩

/-- C2: for every valid variant value, GetScript produces the fixed
5-byte header — the no-payout marker byte OP_RETURN followed by the
magic 0xAC 0xDC 0xF6 0x6F — and the bytes from offset 5 onward are
exactly the serialization of the object, which begins with its tag
byte. -/
theorem C2_script_header (o : SidechainObj) (h : WFObj o) :
    SidechainObj.getScript o =
      OP_RETURN :: 0xAC :: 0xDC :: 0xF6 :: 0x6F :: Encode o ∧
    (Encode o).head? = some o.kindTag :=
  ⟨getScript_eq o h, Encode_head o h⟩

theorem C2_script_header_witness :
    WFObj (.wt exWT) ∧
    (SidechainObj.getScript (.wt exWT) =
      OP_RETURN :: 0xAC :: 0xDC :: 0xF6 :: 0x6F :: Encode (.wt exWT) ∧
    (Encode (.wt exWT)).head? = some (SidechainObj.kindTag (.wt exWT))) :=
  ⟨by decide, C2_script_header _ (by decide)⟩

/-- C3, counterexample: the claim that the payload produced by Encode
contains no tag byte is false — for the concrete valid withdrawal
request the payload both contains the tag byte and begins with it. -/
theorem C3_counterexample :
    DB_SIDECHAIN_WT_OP ∈ Encode (.wt exWT) ∧
    (Encode (.wt exWT)).head? = some DB_SIDECHAIN_WT_OP := by
  constructor
  · decide
  · decide

/-- C3, amended: the payload produced by the serialization of a variant
itself begins with the tag byte; the commitment encoder adds only the
5-byte marker-plus-magic header and inserts no separate tag byte, so
the bytes after the header are exactly the tag-leading payload. -/
theorem C3_amended_tag_in_payload (o : SidechainObj) (h : WFObj o) :
    (Encode o).head? = some o.kindTag ∧
    (SidechainObj.getScript o).drop 5 = Encode o :=
  ⟨Encode_head o h, by rw [getScript_eq o h]; rfl⟩

theorem C3_amended_tag_in_payload_witness :
    WFObj (.deposit exDeposit) ∧
    ((Encode (.deposit exDeposit)).head? =
      some (SidechainObj.kindTag (.deposit exDeposit)) ∧
    (SidechainObj.getScript (.deposit exDeposit)).drop 5 =
      Encode (.deposit exDeposit)) :=
  ⟨by decide, C3_amended_tag_in_payload _ (by decide)⟩

/-- C4: on a buffer whose first byte is a recognized tag but whose
remaining bytes are insufficient or malformed for that variant (the
dispatched field deserializer fails), ParseSidechainObj is a hard decode
failure, distinct from the absence result and from every successfully
populated object. -/
theorem C4_malformed_rejection (b : Nat) (rest : List Nat)
    (hKnown : b = DB_SIDECHAIN_WT_OP ∨ b = DB_SIDECHAIN_WTPRIME_OP ∨
      b = DB_SIDECHAIN_DEPOSIT_OP)
    (hMal : decodeTagged b (b :: rest) = none) :
    ParseSidechainObj (b :: rest) = .error ∧
    ParseResult.error ≠ ParseResult.absence ∧
    ∀ o, ParseResult.error ≠ ParseResult.ok o := by
  refine ⟨?_, by decide, fun o => by simp⟩
  rcases hKnown with hb | hb | hb
  · subst hb
    unfold decodeTagged at hMal
    rw [if_pos rfl] at hMal
    have hdec : decodeWT (DB_SIDECHAIN_WT_OP :: rest) = none :=
      Option.map_eq_none'.mp hMal
    simp only [ParseSidechainObj, if_true]
    rw [hdec]
  · subst hb
    unfold decodeTagged at hMal
    rw [if_neg (by decide), if_pos rfl] at hMal
    have hdec : decodeWTPrime (DB_SIDECHAIN_WTPRIME_OP :: rest) = none :=
      Option.map_eq_none'.mp hMal
    simp only [ParseSidechainObj, if_true]
    rw [hdec]
    simp [DB_SIDECHAIN_WT_OP, DB_SIDECHAIN_WTPRIME_OP]
  · subst hb
    unfold decodeTagged at hMal
    rw [if_neg (by decide), if_neg (by decide), if_pos rfl] at hMal
    have hdec : decodeDeposit (DB_SIDECHAIN_DEPOSIT_OP :: rest) = none :=
      Option.map_eq_none'.mp hMal
    simp only [ParseSidechainObj, if_true]
    rw [hdec]
    simp [DB_SIDECHAIN_WT_OP, DB_SIDECHAIN_WTPRIME_OP, DB_SIDECHAIN_DEPOSIT_OP]

theorem C4_malformed_rejection_witness :
    (DB_SIDECHAIN_WT_OP = DB_SIDECHAIN_WT_OP ∨
      DB_SIDECHAIN_WT_OP = DB_SIDECHAIN_WTPRIME_OP ∨
      DB_SIDECHAIN_WT_OP = DB_SIDECHAIN_DEPOSIT_OP) ∧
    decodeTagged DB_SIDECHAIN_WT_OP [DB_SIDECHAIN_WT_OP] = none ∧
    (ParseSidechainObj [DB_SIDECHAIN_WT_OP] = .error ∧
      ParseResult.error ≠ ParseResult.absence ∧
      ∀ o, ParseResult.error ≠ ParseResult.ok o) :=
  ⟨Or.inl rfl, by decide,
    C4_malformed_rejection DB_SIDECHAIN_WT_OP [] (Or.inl rfl) (by decide)⟩

/-- C5: on the empty buffer, and on every buffer whose first byte is
none of the three recognized tags, ParseSidechainObj returns absence
(no object), not an error. -/
theorem C5_unknown_tag_absence (vch : List Nat)
    (hW : vch.head? ≠ some DB_SIDECHAIN_WT_OP)
    (hP : vch.head? ≠ some DB_SIDECHAIN_WTPRIME_OP)
    (hD : vch.head? ≠ some DB_SIDECHAIN_DEPOSIT_OP) :
    ParseSidechainObj vch = .absence := by
  cases vch with
  | nil => rfl
  | cons b rest =>
    simp only [List.head?_cons, ne_eq, Option.some.injEq] at hW hP hD
    simp only [ParseSidechainObj]
    rw [if_neg hW, if_neg hP, if_neg hD]

theorem C5_unknown_tag_absence_witness :
    ParseSidechainObj [] = .absence ∧ ParseSidechainObj [0] = .absence :=
  ⟨C5_unknown_tag_absence [] (by decide) (by decide) (by decide),
   C5_unknown_tag_absence [0] (by decide) (by decide) (by decide)⟩

/-- C6: after fee-priority ordering every adjacent pair is in
non-increasing mainchain-fee order, and the concrete input with fees
500000, 900000, 100000 (all unspent) is ordered into 900000, 500000,
100000. -/
theorem C6_fee_ordering :
    (∀ v : List SidechainWT, List.Chain'
      (fun a b => a.mainchainFee ≥ b.mainchainFee) (SortWTByFee v)) ∧
    (SortWTByFee vWTFeeExample).map SidechainWT.mainchainFee =
      [900000, 500000, 100000] := by
  constructor
  · intro v
    have hs := List.sorted_insertionSort
      (fun a b => ¬ CompareWTMainchainFee b a) v
    have hp : (SortWTByFee v).Pairwise
        (fun a b => a.mainchainFee ≥ b.mainchainFee) := by
      refine List.Pairwise.imp ?_ hs
      intro a b hab
      simp only [CompareWTMainchainFee] at hab
      omega
    exact hp.chain'
  · decide

/-- C7: the status filter retains exactly the unspent withdrawal
requests — every retained element is unspent, every unspent element of
the input is retained, and the retained elements form a sublist of the
input, so their relative order is the input order. -/
theorem C7_status_filter (v : List SidechainWT) :
    (∀ wt ∈ SelectUnspentWT v, wt.status = WT_UNSPENT) ∧
    (∀ wt ∈ v, wt.status = WT_UNSPENT → wt ∈ SelectUnspentWT v) ∧
    (SelectUnspentWT v).Sublist v := by
  refine ⟨?_, ?_, List.filter_sublist v⟩
  · intro wt hmem
    have hcond := (List.mem_filter.mp hmem).2
    simpa using hcond
  · intro wt hmem hst
    refine List.mem_filter.mpr ⟨hmem, ?_⟩
    simp [hst]

theorem C7_status_filter_witness :
    exWT ∈ SelectUnspentWT vWTStatusExample ∧
    (SelectUnspentWT vWTStatusExample).Sublist vWTStatusExample :=
  ⟨(C7_status_filter vWTStatusExample).2.1 exWT (by decide) (by decide),
   (C7_status_filter vWTStatusExample).2.2⟩

/-- C8: after recency ordering every adjacent pair of bundles is in
non-increasing height order (most recent first). -/
theorem C8_recency_ordering (v : List SidechainWTPrime) :
    List.Chain' (fun a b => a.nHeight ≥ b.nHeight)
      (SortWTPrimeByHeight v) := by
  have hs := List.sorted_insertionSort
    (fun a b => ¬ CompareWTPrimeHeight b a) v
  have hp : (SortWTPrimeByHeight v).Pairwise
      (fun a b => a.nHeight ≥ b.nHeight) := by
    refine List.Pairwise.imp ?_ hs
    intro a b hab
    simp only [CompareWTPrimeHeight] at hab
    omega
  exact hp.chain'

/-- C9: GetHash on an object whose tag field matches none of the three
recognized kinds returns the default zero hash value. -/
theorem C9_unknown_tag_zero_hash (o : SidechainObj)
    (hW : o.sidechainop ≠ DB_SIDECHAIN_WT_OP)
    (hP : o.sidechainop ≠ DB_SIDECHAIN_WTPRIME_OP)
    (hD : o.sidechainop ≠ DB_SIDECHAIN_DEPOSIT_OP) :
    SidechainObj.getHash o = 0 := by
  unfold SidechainObj.getHash
  rw [if_neg hW, if_neg hP, if_neg hD]

theorem C9_unknown_tag_zero_hash_witness :
    (SidechainObj.sidechainop (.wt { exWT with sidechainop := 0 }) ≠
      DB_SIDECHAIN_WT_OP) ∧
    SidechainObj.getHash (.wt { exWT with sidechainop := 0 }) = 0 :=
  ⟨by decide,
   C9_unknown_tag_zero_hash (.wt { exWT with sidechainop := 0 })
     (by decide) (by decide) (by decide)⟩

/-- C10: decoding the serialization of a valid variant value followed by
any trailing byte sequence succeeds and reproduces the value field for
field — the decoder consumes only the bytes of the variant's field
layout and ignores what follows. -/
theorem C10_trailing_bytes_ignored (o : SidechainObj) (s : List Nat)
    (h : WFObj o) :
    ParseSidechainObj (Encode o ++ s) = .ok o :=
  ParseSidechainObj_Encode o s h

theorem C10_trailing_bytes_ignored_witness :
    WFObj (.wt exWT) ∧
    ParseSidechainObj (Encode (.wt exWT) ++ [255, 254, 0]) = .ok (.wt exWT) :=
  ⟨by decide, C10_trailing_bytes_ignored (.wt exWT) [255, 254, 0] (by decide)⟩
